import Mathlib

/-!
Verification of the resilient concurrent execution layer of the
fact-checker repository: circuit breaker and rate limiter
(apps/agent/utils/rate_limiter.py), retrying structured-output caller,
consensus voting aggregator and evidence token budgeter
(apps/agent/utils/llm.py), and the bounded search-decision loop
(apps/agent/claim_verifier/nodes/search_decision.py).

Timestamps are modelled as integers (Python float seconds), error
messages and URLs as lists of characters, and each Python method as a
pure state-passing function.  All calls on a breaker instance are
serialized by its asyncio lock, so an interleaving of concurrent calls
is a sequence of these atomic operations.
-/

namespace FC

/-- Python substring test helper: does `hay` start with `needle`. -/
def hasLead : List Char → List Char → Bool
  | [], _ => true
  | _ :: _, [] => false
  | n :: ns, h :: hs => n == h && hasLead ns hs

/-- Python `needle in hay` on strings, as lists of characters. -/
def containsSub (needle : List Char) : List Char → Bool
  | [] => needle.isEmpty
  | h :: t => hasLead needle (h :: t) || containsSub needle t

/-- Python `str.lower()` (the source only lowercases ASCII URLs and
error messages). -/
def lowerChars (s : List Char) : List Char := s.map Char.toLower

/-! ## CircuitBreaker (apps/agent/utils/rate_limiter.py, lines 17-95) -/

/-- Mutable state of `CircuitBreaker.__init__`: the configuration plus
`failures`, `is_open` and `opened_at`. -/
structure CircuitBreaker where
  failure_threshold : Nat
  timeout_seconds : Int
  window_seconds : Int
  failures : List Int
  is_open : Bool
  opened_at : Option Int
  deriving DecidableEq

/-- A freshly constructed breaker (`__init__`): empty failure list,
closed, no opening timestamp. -/
def freshBreaker (F : Nat) (T W : Int) : CircuitBreaker :=
  ⟨F, T, W, [], false, none⟩

/-- CircuitBreaker.record_failure at current time `t` (lines 41-59):
append the timestamp, prune entries with `t - f >= window_seconds`,
and if the windowed count reaches the threshold while closed,
open the circuit stamping `opened_at = t`. -/
def record_failure (b : CircuitBreaker) (t : Int) : CircuitBreaker :=
  let fs := (b.failures ++ [t]).filter (fun f => decide (t - f < b.window_seconds))
  if b.failure_threshold ≤ fs.length ∧ b.is_open = false then
    { b with failures := fs, is_open := true, opened_at := some t }
  else
    { b with failures := fs }

/-- CircuitBreaker.record_success (lines 61-70): clear the failure
list; if the circuit was open, close it and clear `opened_at`. -/
def record_success (b : CircuitBreaker) : CircuitBreaker :=
  let b1 := { b with failures := ([] : List Int) }
  if b1.is_open then { b1 with is_open := false, opened_at := none } else b1

/-- Outcome of `check_and_wait` for one caller: either the caller
proceeds immediately, or it sleeps `wait` seconds and then proceeds
(the source returns right after the sleep, without re-checking). -/
inductive AdmitResult
  | proceed
  | sleepThenProceed (wait : Int)
  deriving DecidableEq

/-- CircuitBreaker.check_and_wait at current time `now` (lines 72-95):
if the circuit is open and `timeout_seconds` have elapsed since
`opened_at`, close the circuit (the log calls this HALF-OPEN, but the
stored state is exactly the closed state) and proceed; if open and not
yet elapsed, sleep the remaining time and then proceed; if closed,
proceed.  The source reads `opened_at` only when `is_open` is true, and
every transition to `is_open = true` sets it, hence the `getD 0`
default is never consulted on reachable states. -/
def check_and_wait (b : CircuitBreaker) (now : Int) : AdmitResult × CircuitBreaker :=
  if b.is_open then
    let elapsed := now - b.opened_at.getD 0
    if b.timeout_seconds ≤ elapsed then
      (.proceed, { b with is_open := false, opened_at := none })
    else
      (.sleepThenProceed (b.timeout_seconds - elapsed), b)
  else
    (.proceed, b)

/-- A sequence of `record_failure` calls, one per timestamp. -/
def record_failures (b : CircuitBreaker) (ts : List Int) : CircuitBreaker :=
  ts.foldl record_failure b

/-! ## RateLimiter (apps/agent/utils/rate_limiter.py, lines 98-136) -/

/-- Outcome of the awaited task inside `RateLimiter.execute`: normal
return, an exception carrying the text `str(e)`, or cancellation of the
caller (`asyncio.CancelledError`, which `except Exception` does not
catch). -/
inductive TaskOutcome (α : Type)
  | ok (a : α)
  | exc (msg : List Char)
  | cancelled

/-- What `execute` itself does with the call: return the value, or
re-raise the exception / propagate the cancellation. -/
inductive ExecResult (α : Type)
  | ok (a : α)
  | raised (msg : List Char)
  | cancelled
  deriving DecidableEq

/-- The 5xx test of `RateLimiter.execute` (lines 132-134): the
lowercased exception text contains "500", "502" or "503". -/
def isServerError (msg : List Char) : Bool :=
  let m := lowerChars msg
  containsSub (("500").toList) m || containsSub (("502").toList) m ||
    containsSub (("503").toList) m

/-- Breaker bookkeeping of `RateLimiter.execute` (lines 126-136) for a
task finishing at time `now`: a normal return records a success; an
exception records a failure exactly when `isServerError` holds and is
re-raised; cancellation touches nothing.  The semaphore acquisition and
release around this is modelled by `executeTrace` below. -/
def executeUpdate (b : CircuitBreaker) (now : Int) :
    TaskOutcome α → ExecResult α × CircuitBreaker
  | .ok a => (.ok a, record_success b)
  | .exc m => if isServerError m then (.raised m, record_failure b now) else (.raised m, b)
  | .cancelled => (.cancelled, b)

/-- Semaphore events of one `execute` call. -/
inductive GateEvent
  | enter (tid : Nat)
  | leave (tid : Nat)
  deriving DecidableEq

/-- The semaphore events emitted by one `execute` call (lines 126-136),
by case on how the task ends.  The body runs under
`async with self.semaphore`, whose exit handler releases the permit on
normal return, on a raised exception, and on cancellation alike. -/
def executeTrace (tid : Nat) : TaskOutcome α → List GateEvent
  | .ok _ => [.enter tid, .leave tid]
  | .exc _ => [.enter tid, .leave tid]
  | .cancelled => [.enter tid, .leave tid]

/-- Occupancy of the gate reachable under a semaphore of capacity
`cap`: a task may enter only while occupancy is below `cap`, and a
departing task decrements it.  This is the admission discipline of
`asyncio.Semaphore(max_concurrent)` in `RateLimiter.__init__`. -/
inductive GateReach (cap : Nat) : Nat → Prop
  | init : GateReach cap 0
  | enter {n : Nat} : GateReach cap n → n < cap → GateReach cap (n + 1)
  | leave {n : Nat} : GateReach cap n → 0 < n → GateReach cap (n - 1)

/-- Number of `enter` events in a gate trace. -/
def enterCount (es : List GateEvent) : Nat :=
  (es.filter (fun e => match e with | .enter _ => true | _ => false)).length

/-- Number of `leave` events in a gate trace. -/
def leaveCount (es : List GateEvent) : Nat :=
  (es.filter (fun e => match e with | .leave _ => true | _ => false)).length

/-! ## call_llm_with_structured_output (apps/agent/utils/llm.py, lines 82-145) -/

/-- Loop body of the retrying caller: `attempts i` is the outcome of
the i-th `ainvoke` (a value or the raised exception), `remaining` the
retries left out of `max_retries`.  The Python loop returns the first
successful value, logs and backs off on failures, and falls through to
`return None` once the range is exhausted. -/
def callLLMAux (attempts : Nat → Except ε α) : Nat → Nat → Option α
  | _, 0 => none
  | i, r + 1 =>
    match attempts i with
    | .ok a => some a
    | .error _ => callLLMAux attempts (i + 1) r

/-- call_llm_with_structured_output with the per-attempt results
abstracted: the `for attempt in range(max_retries)` loop starting at
attempt 0. -/
def call_llm_with_structured_output (attempts : Nat → Except ε α)
    (max_retries : Nat) : Option α :=
  callLLMAux attempts 0 max_retries

/-! ## process_with_voting (apps/agent/utils/llm.py, lines 148-197) -/

/-- Number of attempts flagged successful (line 180). -/
def successCount (attempts : List (Bool × Option ρ)) : Nat :=
  (attempts.filter (fun p => p.1)).length

/-- The selection loop of lines 189-195: scan attempts in launch
order; on the first one with `success` and a non-None value whose
`result_factory` output is truthy (modelled as `some`), emit it and
stop; otherwise keep scanning. -/
def firstSuccess (factory : ρ → Option σ) : List (Bool × Option ρ) → Option σ
  | [] => none
  | (success, result) :: rest =>
    if success then
      match result with
      | some r =>
        match factory r with
        | some pr => some pr
        | none => firstSuccess factory rest
      | none => firstSuccess factory rest
    else
      firstSuccess factory rest

/-- Per-item body of the `for item in items` loop: the gathered
attempt list is checked against the quorum `min_successes` (lines
180-187), then at most one result is selected (lines 189-195). -/
def processItem (attempts : List (Bool × Option ρ)) (min_successes : Nat)
    (factory : ρ → Option σ) : List σ :=
  if successCount attempts < min_successes then []
  else
    match firstSuccess factory attempts with
    | some a => [a]
    | none => []

/-- process_with_voting: items processed sequentially, appending each
item's accepted results to the running list.  `attemptsOf it` stands
for the list `await asyncio.gather(*[processor(item, llm) for _ in
range(completions)])`, in launch order, and `factory r it` for the
truthiness-filtered `result_factory(result, item)`. -/
def process_with_voting (items : List ι) (attemptsOf : ι → List (Bool × Option ρ))
    (min_successes : Nat) (factory : ρ → ι → Option σ) : List σ :=
  items.foldl
    (fun results it =>
      results ++ processItem (attemptsOf it) min_successes (fun r => factory r it))
    []

/-! ## truncate_evidence_for_token_limit (apps/agent/utils/llm.py, lines 27-79) -/

/-- estimate_token_count (line 22): `int(len(text) * 0.75)`. -/
def estimate_token_count (s : List Char) : Nat := 3 * s.length / 4

/-- The greedy reverse walk of lines 57-63: iterate over the reversed
evidence, appending to `selected` while the token estimate of the
formatted selection stays within `available`, and stop at the first
overflow.  `fmtTokens` is `estimate_token_count ∘ format_func`. -/
def greedySelect (fmtTokens : List α → Nat) (available : Int) :
    List α → List α → List α
  | acc, [] => acc
  | acc, e :: rest =>
    if (fmtTokens (acc ++ [e]) : Int) ≤ available then
      greedySelect fmtTokens available (acc ++ [e]) rest
    else acc

/-- truncate_evidence_for_token_limit with the prompt skeleton
abstracted to its token estimate `base_tokens` (line 44-47 computes it
with `estimate_token_count` over the formatted prompts) and the
formatted-selection cost to `fmtTokens`.  Mirrors lines 35-79: empty
input returned as is; degenerate budget returns the first
`min(3, n)` items; otherwise the greedy reverse walk selects a set,
the input is filtered (by equality) to the selected set to restore
the original order, and the minimum-items floor is applied to that
filtered result. -/
def truncate_evidence_for_token_limit [DecidableEq α] (items : List α)
    (fmtTokens : List α → Nat) (base_tokens : Nat) (max_tokens : Nat) : List α :=
  if items = [] then items
  else
    let available : Int := (max_tokens : Int) - (base_tokens : Int) - 4000
    if available ≤ 0 then items.take (min 3 items.length)
    else
      let selected := greedySelect fmtTokens available [] items.reverse
      let result := items.filter (fun e => decide (e ∈ selected))
      if result.length = 0 ∧ 0 < items.length then items.take (min 3 items.length)
      else if result.length < 3 ∧ 3 ≤ items.length then items.take 3
      else result

/-! ## search_decision_node (apps/agent/claim_verifier/nodes/search_decision.py) -/

/-- AUTHORITATIVE_DOMAINS (lines 25-41). -/
def authoritative_domains : List (List Char) :=
  [("gov"), ("edu"), (".org"), ("who.int"), ("imf.org"), ("worldbank.org"),
   ("un.org"), ("nasa.gov"), ("cdc.gov"), ("nih.gov"), ("nature.com"),
   ("science.org"), ("nejm.org"), ("wikipedia.org"),
   ("britannica.com")].map String.toList

/-- An evidence item as consumed by the decision logic: only its `url`
field participates in the allow-list heuristics (the `text` and
`title` fields feed the prompt text only). -/
structure Evidence where
  url : List Char
  deriving DecidableEq

/-- The per-item allow-list test shared by lines 53-56 and line 105:
some domain of the allow-list is a substring of the lowercased URL. -/
def is_authoritative (ev : Evidence) : Bool :=
  authoritative_domains.any (fun d => containsSub d (lowerChars ev.url))

/-- has_authoritative_source (lines 44-57): the loop returns True on
the first matching item, i.e. some item matches. -/
def has_authoritative_source (evidence : List Evidence) : Bool :=
  evidence.any is_authoritative

/-- Line 105: `sum(1 for ev in evidence if ...)`. -/
def authoritativeCount (evidence : List Evidence) : Nat :=
  (evidence.filter is_authoritative).length

/-- The structured LLM answer (class SearchDecisionOutput); only
`needs_more_evidence` feeds the control flow. -/
structure SDOutput where
  needs_more_evidence : Bool

/-- Where the node routes the graph next. -/
inductive Goto
  | generate_search_query
  | evaluate_evidence
  deriving DecidableEq

/-- search_decision_node (lines 78-177) as a function of the state
fields it reads (`iteration_count`, `evidence`), the configured
`max_iterations`, and the LLM response (None when
call_llm_with_structured_output exhausted its retries).  Returns the
routing target plus the `iteration_count` after the node (the update
dict increments it exactly on the continue branch).  Branches in
source order: the hard iteration cap, the two allow-list early stops,
the failed-assessment default, then the LLM-driven decision. -/
def search_decision_node (max_iterations : Nat) (iteration_count : Nat)
    (evidence : List Evidence) (response : Option SDOutput) : Goto × Nat :=
  if max_iterations ≤ iteration_count then (.evaluate_evidence, iteration_count)
  else if 3 ≤ evidence.length ∧ has_authoritative_source evidence = true then
    (.evaluate_evidence, iteration_count)
  else if 2 ≤ authoritativeCount evidence ∧ 2 ≤ evidence.length then
    (.evaluate_evidence, iteration_count)
  else
    match response with
    | none => (.evaluate_evidence, iteration_count)
    | some r =>
      if r.needs_more_evidence = true ∧ iteration_count < max_iterations then
        (.generate_search_query, iteration_count + 1)
      else (.evaluate_evidence, iteration_count)

/-- One claim-verification run of the decision loop: each tick feeds
the node the evidence and LLM response current at that tick, starting
from `iteration_count = c` (0 for a fresh `ClaimVerifierState`).
Returns the number of node evaluations until the DONE hand-off to
evaluate_evidence, or `none` if the supplied ticks ran out while the
loop still wanted to gather. -/
def loopRun (max_iterations : Nat) :
    List (List Evidence × Option SDOutput) → Nat → Option Nat
  | [], _ => none
  | (ev, r) :: rest, c =>
    match search_decision_node max_iterations c ev r with
    | (.evaluate_evidence, _) => some 1
    | (.generate_search_query, c2) => (loopRun max_iterations rest c2).map (· + 1)

/-- Modelled from the spec: an error as classified by the error
taxonomy of the design (Transient / RateLimited / Permanent with a
5xx-class server-side subset) — an HTTP status together with the text
`str(e)` that the code inspects.  The code under src/ never sees the
status, only the text. -/
structure HttpError where
  status : Nat
  msg : List Char

/-- Modelled from the spec: the 5xx-class server-side failures, i.e.
HTTP statuses 500-599. -/
def spec_is_server_error (e : HttpError) : Bool :=
  decide (500 ≤ e.status) && decide (e.status ≤ 599)

/-! ## Helper lemmas -/

/-- The failure list after `record_failure` is the appended-and-pruned
list, whether or not the circuit opens. -/
theorem record_failure_failures (b : CircuitBreaker) (t : Int) :
    (record_failure b t).failures =
      (b.failures ++ [t]).filter (fun f => decide (t - f < b.window_seconds)) := by
  simp only [record_failure]
  split <;> rfl

/-- Unfolding lemma: recording no failures is the identity. -/
theorem record_failures_nil (b : CircuitBreaker) : record_failures b [] = b := rfl

/-- Unfolding lemma: recording a burst one failure at a time. -/
theorem record_failures_cons (b : CircuitBreaker) (t : Int) (ts : List Int) :
    record_failures b (t :: ts) = record_failures (record_failure b t) ts := rfl

/-- Opening lemma for a run of failures: starting closed with failure
list `acc`, a nonempty burst `ts` with every pair of recorded
timestamps closer than the window opens the circuit exactly when the
total count reaches the threshold, stamping the last timestamp. -/
theorem record_failures_opens_aux (ts : List Int) :
    ∀ (hne : ts ≠ []) (acc : List Int) (F : Nat) (T W : Int),
      0 < W →
      List.Pairwise (fun x y => y - x < W) (acc ++ ts) →
      acc.length + ts.length = F →
      (record_failures ⟨F, T, W, acc, false, none⟩ ts).is_open = true ∧
      (record_failures ⟨F, T, W, acc, false, none⟩ ts).opened_at = some (ts.getLast hne) ∧
      (record_failures ⟨F, T, W, acc, false, none⟩ ts).failures.length = F := by
  induction ts with
  | nil => intro hne; exact absurd rfl hne
  | cons t rest ih =>
    intro hne acc F T W hW hp hlen
    have hpair := List.pairwise_append.mp hp
    have hkeep : ∀ a ∈ acc ++ [t], decide (t - a < W) = true := by
      intro a ha
      rcases List.mem_append.mp ha with h | h
      · exact decide_eq_true (hpair.2.2 a h t (List.mem_cons_self t rest))
      · have : a = t := by simpa using h
        subst this
        simpa using hW
    have hfs : (acc ++ [t]).filter (fun f => decide (t - f < W)) = acc ++ [t] :=
      List.filter_eq_self.mpr hkeep
    cases rest with
    | nil =>
      have hF : F = acc.length + 1 := by simpa using hlen.symm
      have hcond : F ≤ ((acc ++ [t]).filter (fun f => decide (t - f < W))).length ∧
          (false : Bool) = false := by
        refine ⟨?_, rfl⟩
        rw [hfs]
        simp [hF]
      have hstep : record_failure ⟨F, T, W, acc, false, none⟩ t =
          ⟨F, T, W, acc ++ [t], true, some t⟩ := by
        unfold record_failure
        rw [if_pos hcond, hfs]
      rw [record_failures_cons, hstep, record_failures_nil]
      refine ⟨rfl, by simp, ?_⟩
      simp only [List.length_append, List.length_cons, List.length_nil]
      omega
    | cons r rs =>
      have hlt : acc.length + 1 < F := by
        simp only [List.length_cons] at hlen
        omega
      have hncond : ¬ (F ≤ ((acc ++ [t]).filter (fun f => decide (t - f < W))).length ∧
          (false : Bool) = false) := by
        rw [hfs]
        simp only [List.length_append, List.length_cons, List.length_nil]
        omega
      have hstep : record_failure ⟨F, T, W, acc, false, none⟩ t =
          ⟨F, T, W, acc ++ [t], false, none⟩ := by
        unfold record_failure
        rw [if_neg hncond, hfs]
      have hp2 : List.Pairwise (fun x y => y - x < W) ((acc ++ [t]) ++ (r :: rs)) := by
        rw [List.append_assoc]
        simpa using hp
      have hlen2 : (acc ++ [t]).length + (r :: rs).length = F := by
        simp only [List.length_append, List.length_cons, List.length_nil] at hlen ⊢
        omega
      have hne2 : (r :: rs) ≠ [] := by simp
      have := ih hne2 (acc ++ [t]) F T W hW hp2 hlen2
      have hlast : (t :: r :: rs).getLast hne = (r :: rs).getLast hne2 :=
        List.getLast_cons hne2
      rw [record_failures_cons, hstep, hlast]
      exact this

/-- A positive authoritative count is the same as the
`has_authoritative_source` loop returning True. -/
theorem auth_count_pos (evidence : List Evidence) :
    0 < authoritativeCount evidence ↔ has_authoritative_source evidence = true := by
  unfold authoritativeCount has_authoritative_source
  rw [List.length_pos_iff_ne_nil]
  constructor
  · intro h
    rcases List.exists_mem_of_ne_nil _ h with ⟨x, hx⟩
    rcases List.mem_filter.mp hx with ⟨hx1, hx2⟩
    exact List.any_eq_true.mpr ⟨x, hx1, hx2⟩
  · intro h
    rcases List.any_eq_true.mp h with ⟨x, hx1, hx2⟩
    intro hnil
    have : x ∈ List.filter is_authoritative evidence := List.mem_filter.mpr ⟨hx1, hx2⟩
    rw [hnil] at this
    simp at this

/-! ## Claim theorems -/

/-- Claim C1 (code_bug evaluation): breaker with threshold 5, timeout
30, window 60, opened by failures at times 0..4.  At time 40 (past the
timeout) the first admission check is admitted and the stored state
becomes exactly the closed state (`is_open = false`, `opened_at =
none`); a second concurrent admission check at the same time is then
also admitted immediately.  No single-probe HALF_OPEN serialization
exists, contradicting the claim. -/
theorem circuit_no_single_probe :
    (check_and_wait (record_failures (freshBreaker 5 30 60) ([0, 1, 2, 3, 4])) 40).1 =
      AdmitResult.proceed ∧
    (check_and_wait (record_failures (freshBreaker 5 30 60) ([0, 1, 2, 3, 4])) 40).2.is_open =
      false ∧
    (check_and_wait (record_failures (freshBreaker 5 30 60) ([0, 1, 2, 3, 4])) 40).2.opened_at =
      none ∧
    (check_and_wait
        (check_and_wait (record_failures (freshBreaker 5 30 60) ([0, 1, 2, 3, 4])) 40).2
        40).1 = AdmitResult.proceed := by
  decide

/-- Claim C2: from a fresh closed breaker, a burst of
`failure_threshold` failures whose timestamps all lie within the
window of one another opens the circuit and stamps `opened_at` with
the last failure time; and `record_success` always clears the failure
list, leaves the breaker closed, and clears `opened_at` of an open
breaker. -/
theorem breaker_opens_at_threshold_and_success_resets (F : Nat) (T W : Int)
    (ts : List Int) (hne : ts ≠ []) (hW : 0 < W)
    (hp : List.Pairwise (fun x y => y - x < W) ts) (hlen : ts.length = F) :
    ((record_failures (freshBreaker F T W) ts).is_open = true ∧
     (record_failures (freshBreaker F T W) ts).opened_at = some (ts.getLast hne) ∧
     (record_failures (freshBreaker F T W) ts).failures.length = F) ∧
    ∀ b : CircuitBreaker,
      (record_success b).failures = [] ∧ (record_success b).is_open = false ∧
      (b.is_open = true → (record_success b).opened_at = none) := by
  constructor
  · have hp0 : List.Pairwise (fun x y => y - x < W) (([] : List Int) ++ ts) := by
      simpa using hp
    have hlen0 : ([] : List Int).length + ts.length = F := by simpa using hlen
    exact record_failures_opens_aux ts hne [] F T W hW hp0 hlen0
  · intro b
    unfold record_success
    cases hb : b.is_open <;> simp [hb]

/-- Claim C2 witness: the spec scenario F=5, W=60, T=30 with failures
at t = 0..4 opens the breaker at the fifth failure with
`opened_at = 4`. -/
theorem breaker_opens_witness :
    (record_failures (freshBreaker 5 30 60) ([0, 1, 2, 3, 4])).is_open = true ∧
    (record_failures (freshBreaker 5 30 60) ([0, 1, 2, 3, 4])).opened_at = some 4 ∧
    (record_failures (freshBreaker 5 30 60) ([0, 1, 2, 3, 4])).failures.length = 5 :=
  (breaker_opens_at_threshold_and_success_resets 5 30 60 ([0, 1, 2, 3, 4])
    (by decide) (by decide) (by decide) (by decide)).1

/-- Claim C8 (counterexample): a 504 Gateway Timeout is a 5xx-class
server-side error, yet `RateLimiter.execute` does not record it on the
breaker, because its substring test only looks for "500", "502" and
"503". -/
theorem server_error_counterexample :
    spec_is_server_error ⟨504, (("504 Server Error: Gateway Timeout")).toList⟩ = true ∧
    isServerError (("504 Server Error: Gateway Timeout")).toList = false ∧
    (executeUpdate (freshBreaker 5 30 60) 0
        (TaskOutcome.exc ((("504 Server Error: Gateway Timeout")).toList) :
          TaskOutcome Nat)).2 = freshBreaker 5 30 60 := by
  decide

/-- Claim C8 (amended): an exception raised inside the gate is counted
on the breaker exactly when its lowercased message contains one of the
substrings "500", "502" or "503": on a fresh breaker the failure
window gains the timestamp precisely in that case, and a message
without those substrings never touches the breaker at all. -/
theorem breaker_counts_substrings {α : Type} (F : Nat) (T W now : Int)
    (msg : List Char) (hW : 0 < W) :
    (executeUpdate (freshBreaker F T W) now (TaskOutcome.exc msg : TaskOutcome α)).2.failures =
      (if isServerError msg = true then [now] else []) ∧
    ∀ b : CircuitBreaker, isServerError msg = false →
      (executeUpdate b now (TaskOutcome.exc msg : TaskOutcome α)).2 = b := by
  constructor
  · unfold executeUpdate
    cases h : isServerError msg
    · simp [h, freshBreaker]
    · simp only [h, if_true, if_pos]
      rw [record_failure_failures]
      simp [freshBreaker, hW]
  · intro b h
    unfold executeUpdate
    simp [h]

/-- Claim C8 witness: a "502 Bad Gateway" failure at time 7 lands in
the fresh breaker's failure window. -/
theorem breaker_counts_witness :
    (executeUpdate (freshBreaker 5 30 60) 7
        (TaskOutcome.exc ((("502 Bad Gateway")).toList) : TaskOutcome Nat)).2.failures =
      (if isServerError (("502 Bad Gateway")).toList = true then [7] else []) ∧
    (executeUpdate (freshBreaker 5 30 60) 7
        (TaskOutcome.exc ((("502 Bad Gateway")).toList) : TaskOutcome Nat)).2.failures = [7] := by
  have h := (@breaker_counts_substrings Nat 5 30 60 7 ((("502 Bad Gateway")).toList)
    (by decide)).1
  exact ⟨h, by rw [h]; decide⟩

/-- Retry loop exhaustion: if every attempt from index `i` through the
remaining budget fails, the loop falls through to `return None`. -/
theorem callLLMAux_all_fail (attempts : Nat → Except ε α) :
    ∀ (r i : Nat), (∀ j, j < r → ∃ e, attempts (i + j) = Except.error e) →
      callLLMAux attempts i r = none := by
  intro r
  induction r with
  | zero => intro i _; rfl
  | succ n ih =>
    intro i h
    rcases h 0 (Nat.succ_pos n) with ⟨e, he⟩
    rw [Nat.add_zero] at he
    unfold callLLMAux
    rw [he]
    exact ih (i + 1) (fun j hj => by
      rcases h (j + 1) (Nat.succ_lt_succ hj) with ⟨e2, he2⟩
      refine ⟨e2, ?_⟩
      have harg : i + 1 + j = i + (j + 1) := by omega
      rw [harg]
      exact he2)

/-- Claim C9: when every one of the `max_retries` attempts raises, the
retrying caller returns None — an absence of result, not an
exception (in this embedding every raised exception is consumed by the
loop and the function is total). -/
theorem retries_all_fail_none (attempts : Nat → Except ε α) (max_retries : Nat)
    (h : ∀ i, i < max_retries → ∃ e, attempts i = Except.error e) :
    call_llm_with_structured_output attempts max_retries = none := by
  unfold call_llm_with_structured_output
  exact callLLMAux_all_fail attempts max_retries 0 (fun j hj => by
    rcases h j hj with ⟨e, he⟩
    exact ⟨e, by simpa using he⟩)

/-- Claim C9 witness: three attempts that all raise yield None. -/
theorem retries_witness :
    call_llm_with_structured_output (fun _ => (Except.error () : Except Unit Nat)) 3 = none :=
  retries_all_fail_none (fun _ => (Except.error () : Except Unit Nat)) 3
    (fun _ _ => ⟨(), rfl⟩)

/-- Claim C3: every gate occupancy reachable under the semaphore
discipline stays at or below the capacity, and one `execute` call
emits exactly one acquire and one release whether the task returns,
raises, or is cancelled — no permit is leaked on any exit path. -/
theorem gate_capacity_and_release (cap : Nat) :
    (∀ n : Nat, GateReach cap n → n ≤ cap) ∧
    (∀ (tid : Nat) (o : TaskOutcome Nat),
      enterCount (executeTrace tid o) = 1 ∧ leaveCount (executeTrace tid o) = 1) := by
  constructor
  · intro n h
    induction h with
    | init => exact Nat.zero_le cap
    | enter _ hlt _ => omega
    | leave _ _ ih => omega
  · intro tid o
    cases o <;> exact ⟨rfl, rfl⟩

/-- Claim C3 witness: the occupancy 2, reached by two admissions
under capacity 4, is within the bound, and a cancelled task's trace is
balanced. -/
theorem gate_capacity_witness :
    (2 : Nat) ≤ 4 ∧
    enterCount (executeTrace 0 (TaskOutcome.cancelled : TaskOutcome Nat)) = 1 ∧
    leaveCount (executeTrace 0 (TaskOutcome.cancelled : TaskOutcome Nat)) = 1 := by
  refine ⟨(gate_capacity_and_release 4).1 2 ?_, (gate_capacity_and_release 4).2 0 .cancelled⟩
  exact GateReach.enter (GateReach.enter GateReach.init (by decide)) (by decide)

/-- The selection loop equals the standard first-match scan: the first
attempt in launch order that is successful, carries a non-None value,
and whose factory output is truthy. -/
theorem firstSuccess_eq_findSome (factory : ρ → Option σ) :
    ∀ attempts : List (Bool × Option ρ),
      firstSuccess factory attempts =
        attempts.findSome? (fun p => if p.1 = true then p.2.bind factory else none) := by
  intro attempts
  induction attempts with
  | nil => rfl
  | cons p rest ih =>
    rcases p with ⟨s, r⟩
    cases s
    · simpa [firstSuccess, List.findSome?_cons] using ih
    · cases r with
      | none => simpa [firstSuccess, List.findSome?_cons] using ih
      | some v =>
        cases hf : factory v <;>
          simp [firstSuccess, List.findSome?_cons, hf, ih]

/-- Claim C4 (counterexample): with 2 attempts per item and quorum 2,
an item whose two attempts both report success but carry a None value
meets the quorum yet yields no result at all — not "exactly one
result built from the first successful attempt". -/
theorem voting_counterexample :
    2 ≤ successCount ([(true, (none : Option Nat)), (true, none)]) ∧
    process_with_voting ([0] : List Nat)
      (fun _ => [(true, (none : Option Nat)), (true, none)]) 2
      (fun r _ => some r) = ([] : List Nat) := by
  decide

/-- Claim C4 (amended): per work item, if fewer than `min_successes`
attempts report success the item yields no result, and otherwise it
yields at most one result — the first attempt in original launch
order that is successful, carries a non-None value, and whose
`result_factory` output is truthy; if no attempt qualifies the item
yields nothing despite the quorum. -/
theorem voting_drop_or_first_success (attempts : List (Bool × Option ρ))
    (min_successes : Nat) (factory : ρ → Option σ) :
    processItem attempts min_successes factory =
      if successCount attempts < min_successes then []
      else
        (attempts.findSome?
          (fun p => if p.1 = true then p.2.bind factory else none)).toList := by
  unfold processItem
  split
  · rfl
  · rw [firstSuccess_eq_findSome]
    cases attempts.findSome? (fun p => if p.1 = true then p.2.bind factory else none) <;> rfl

/-- Appending per-item results in a left fold is flattening in input
order. -/
theorem foldl_append_eq_bind (g : ι → List σ) :
    ∀ (items : List ι) (acc : List σ),
      items.foldl (fun results it => results ++ g it) acc = acc ++ items.flatMap g := by
  intro items
  induction items with
  | nil => intro acc; simp
  | cons it rest ih =>
    intro acc
    rw [List.foldl_cons, ih, List.flatMap_cons, List.append_assoc]

/-- Claim C10: process_with_voting is the in-order flattening of the
per-item outputs, and each item contributes at most one entry, no
matter how many of its attempts succeeded. -/
theorem voting_order_at_most_one (items : List ι)
    (attemptsOf : ι → List (Bool × Option ρ)) (min_successes : Nat)
    (factory : ρ → ι → Option σ) :
    process_with_voting items attemptsOf min_successes factory =
      items.flatMap (fun it => processItem (attemptsOf it) min_successes (fun r => factory r it)) ∧
    ∀ it : ι, (processItem (attemptsOf it) min_successes (fun r => factory r it)).length ≤ 1 := by
  constructor
  · unfold process_with_voting
    rw [foldl_append_eq_bind]
    simp
  · intro it
    unfold processItem
    split
    · simp
    · cases firstSuccess (fun r => factory r it) (attemptsOf it) <;> simp

/-- The greedy reverse walk only ever extends its accumulator with a
prefix of the items it still has to visit. -/
theorem greedySelect_eq_take (fmtTokens : List α → Nat) (available : Int) :
    ∀ (rest acc : List α),
      ∃ k, greedySelect fmtTokens available acc rest = acc ++ rest.take k := by
  intro rest
  induction rest with
  | nil => intro acc; exact ⟨0, by simp [greedySelect]⟩
  | cons e rest ih =>
    intro acc
    unfold greedySelect
    split
    · rcases ih (acc ++ [e]) with ⟨k, hk⟩
      refine ⟨k + 1, ?_⟩
      rw [hk, List.append_assoc]
      rfl
    · exact ⟨0, by simp⟩

/-- Filtering a duplicate-free list by membership in a duplicate-free
selection of its elements keeps exactly the selection's cardinality. -/
theorem filter_mem_length [DecidableEq α] (items sel : List α) (hnd : items.Nodup)
    (hselnd : sel.Nodup) (hsub : ∀ x ∈ sel, x ∈ items) :
    (items.filter (fun e => decide (e ∈ sel))).length = sel.length := by
  have h1 : (items.filter (fun e => decide (e ∈ sel))).Nodup := hnd.filter _
  have hfin : (items.filter (fun e => decide (e ∈ sel))).toFinset = sel.toFinset := by
    apply Finset.ext
    intro x
    rw [List.mem_toFinset, List.mem_toFinset, List.mem_filter]
    simp only [decide_eq_true_eq]
    exact ⟨fun h => h.2, fun h => ⟨hsub x h, h⟩⟩
  calc (items.filter (fun e => decide (e ∈ sel))).length
      = (items.filter (fun e => decide (e ∈ sel))).toFinset.card :=
        (List.toFinset_card_of_nodup h1).symm
    _ = sel.toFinset.card := by rw [hfin]
    _ = sel.length := List.toFinset_card_of_nodup hselnd

/-- A take of at least one element of a nonempty list is nonempty. -/
theorem take_ne_nil_of_pos (items : List α) (k : Nat) (hk : 0 < k)
    (hne : items ≠ []) : items.take k ≠ [] := by
  rw [Ne, List.take_eq_nil_iff]
  push_neg
  exact ⟨by omega, hne⟩

/-- Claim C5 (counterexample): with duplicated evidence items (Python
equality is value equality on pydantic models), the greedy walk can
select 2 items while the order-restoring filter brings back all 4, so
the "force exactly the first 3" floor is skipped: here the walk
selects 2 items, the input has 4 ≥ 3, yet all 4 items are returned
instead of the first 3. -/
theorem truncate_floor_counterexample :
    (greedySelect (fun l => 10 * l.length) 25 [] (([0, 0, 0, 1] : List Nat)).reverse).length
      = 2 ∧
    3 ≤ ([0, 0, 0, 1] : List Nat).length ∧
    truncate_evidence_for_token_limit ([0, 0, 0, 1] : List Nat)
      (fun l => 10 * l.length) 0 4025 = [0, 0, 0, 1] ∧
    truncate_evidence_for_token_limit ([0, 0, 0, 1] : List Nat)
      (fun l => 10 * l.length) 0 4025 ≠ ([0, 0, 0, 1] : List Nat).take 3 := by
  decide

/-- Claim C5 (amended, assuming pairwise-distinct evidence items): for
a non-empty list of pairwise-distinct items, a non-positive available
budget returns exactly the first min(3, n) items; a greedy walk that
selects 0 items forces the first min(3, n); a walk that selects 1-2
items while the input has ≥ 3 returns exactly the first 3; and the
result is never empty.  (With duplicated items the floors are keyed on
the order-restored filtered selection instead of the walk's count.) -/
theorem truncate_evidence_floor_props [DecidableEq α] (items : List α)
    (fmtTokens : List α → Nat) (base_tokens max_tokens : Nat) (avail : Int)
    (sel : List α) (hne : items ≠ []) (hnd : items.Nodup)
    (ha : avail = (max_tokens : Int) - (base_tokens : Int) - 4000)
    (hs : sel = greedySelect fmtTokens avail [] items.reverse) :
    (avail ≤ 0 →
      truncate_evidence_for_token_limit items fmtTokens base_tokens max_tokens =
        items.take (min 3 items.length)) ∧
    (0 < avail → sel = [] →
      truncate_evidence_for_token_limit items fmtTokens base_tokens max_tokens =
        items.take (min 3 items.length)) ∧
    (0 < avail → 1 ≤ sel.length → sel.length ≤ 2 → 3 ≤ items.length →
      truncate_evidence_for_token_limit items fmtTokens base_tokens max_tokens =
        items.take 3) ∧
    truncate_evidence_for_token_limit items fmtTokens base_tokens max_tokens ≠ [] := by
  have hlen : 0 < items.length := List.length_pos_iff_ne_nil.mpr hne
  have hmin : 0 < min 3 items.length := by omega
  have htake_min : items.take (min 3 items.length) ≠ [] :=
    take_ne_nil_of_pos items (min 3 items.length) hmin hne
  by_cases hA : avail ≤ 0
  · have heq : truncate_evidence_for_token_limit items fmtTokens base_tokens max_tokens =
        items.take (min 3 items.length) := by
      simp only [truncate_evidence_for_token_limit, if_neg hne]
      rw [if_pos (ha ▸ hA)]
    refine ⟨fun _ => heq, fun h0 => absurd hA (by omega), fun h0 => absurd hA (by omega), ?_⟩
    rw [heq]
    exact htake_min
  · have hpos : 0 < avail := by omega
    have heq : truncate_evidence_for_token_limit items fmtTokens base_tokens max_tokens =
        (if (items.filter (fun e => decide (e ∈ sel))).length = 0 ∧ 0 < items.length then
          items.take (min 3 items.length)
        else if (items.filter (fun e => decide (e ∈ sel))).length < 3 ∧ 3 ≤ items.length then
          items.take 3
        else items.filter (fun e => decide (e ∈ sel))) := by
      simp only [truncate_evidence_for_token_limit, if_neg hne]
      rw [if_neg (ha ▸ hA), ← ha, ← hs]
    rcases greedySelect_eq_take fmtTokens avail items.reverse [] with ⟨k, hk⟩
    have hsel_take : sel = items.reverse.take k := by
      rw [hs, hk, List.nil_append]
    have hselnd : sel.Nodup := by
      rw [hsel_take]
      exact (List.take_sublist k items.reverse).nodup (List.nodup_reverse.mpr hnd)
    have hsub : ∀ x ∈ sel, x ∈ items := by
      intro x hx
      rw [hsel_take] at hx
      exact List.mem_reverse.mp (List.mem_of_mem_take hx)
    have hflen : (items.filter (fun e => decide (e ∈ sel))).length = sel.length :=
      filter_mem_length items sel hnd hselnd hsub
    refine ⟨fun h0 => absurd h0 (by omega), ?_, ?_, ?_⟩
    · intro _ hsel0
      rw [heq, if_pos]
      refine ⟨?_, hlen⟩
      rw [hflen, hsel0]
      rfl
    · intro _ h1 h2 h3
      rw [heq, if_neg, if_pos]
      · exact ⟨by omega, h3⟩
      · rw [hflen]
        omega
    · rw [heq]
      by_cases hc1 : (items.filter (fun e => decide (e ∈ sel))).length = 0 ∧ 0 < items.length
      · rw [if_pos hc1]
        exact htake_min
      · rw [if_neg hc1]
        by_cases hc2 : (items.filter (fun e => decide (e ∈ sel))).length < 3 ∧ 3 ≤ items.length
        · rw [if_pos hc2]
          exact take_ne_nil_of_pos items 3 (by omega) hne
        · rw [if_neg hc2]
          have : (items.filter (fun e => decide (e ∈ sel))).length ≠ 0 := by
            intro h0
            exact hc1 ⟨h0, hlen⟩
          intro hnil
          rw [hnil] at this
          simp at this

/-- Claim C5 witness: four distinct items of formatted cost 10 each
under an available budget of 25: the walk keeps the last two, the
floor then returns exactly the first 3 items, and the result is
nonempty. -/
theorem truncate_floor_witness :
    truncate_evidence_for_token_limit ([10, 20, 30, 40] : List Nat)
      (fun l => 10 * l.length) 0 4025 = [10, 20, 30] ∧
    truncate_evidence_for_token_limit ([10, 20, 30, 40] : List Nat)
      (fun l => 10 * l.length) 0 4025 ≠ [] := by
  have h := truncate_evidence_floor_props ([10, 20, 30, 40] : List Nat)
    (fun l => 10 * l.length) 0 4025 25 ([40, 30]) (by decide) (by decide)
    (by decide) (by decide)
  exact ⟨h.2.2.1 (by decide) (by decide) (by decide) (by decide), h.2.2.2⟩

/-- Every evaluation of the decision node either hands off to
evaluate_evidence leaving the count unchanged, or continues gathering
with the count incremented, and continuing requires being under the
cap. -/
theorem search_decision_cases (m c : Nat) (ev : List Evidence) (r : Option SDOutput) :
    search_decision_node m c ev r = (Goto.evaluate_evidence, c) ∨
    (search_decision_node m c ev r = (Goto.generate_search_query, c + 1) ∧ c < m) := by
  unfold search_decision_node
  by_cases h1 : m ≤ c
  · rw [if_pos h1]
    exact Or.inl rfl
  · rw [if_neg h1]
    by_cases h2 : 3 ≤ ev.length ∧ has_authoritative_source ev = true
    · rw [if_pos h2]
      exact Or.inl rfl
    · rw [if_neg h2]
      by_cases h3 : 2 ≤ authoritativeCount ev ∧ 2 ≤ ev.length
      · rw [if_pos h3]
        exact Or.inl rfl
      · rw [if_neg h3]
        cases r with
        | none => exact Or.inl rfl
        | some rr =>
          by_cases h4 : rr.needs_more_evidence = true ∧ c < m
          · refine Or.inr ⟨?_, h4.2⟩
            show (if rr.needs_more_evidence = true ∧ c < m then
                (Goto.generate_search_query, c + 1)
              else (Goto.evaluate_evidence, c)) = (Goto.generate_search_query, c + 1)
            rw [if_pos h4]
          · refine Or.inl ?_
            show (if rr.needs_more_evidence = true ∧ c < m then
                (Goto.generate_search_query, c + 1)
              else (Goto.evaluate_evidence, c)) = (Goto.evaluate_evidence, c)
            rw [if_neg h4]

/-- Bounded termination of the decision loop: starting at count `c ≤
m` with at least `m + 1 - c` ticks available, the loop hands off to
evaluate_evidence within `m + 1 - c` node evaluations. -/
theorem loopRun_reaches (m : Nat) :
    ∀ (ticks : List (List Evidence × Option SDOutput)) (c : Nat), c ≤ m →
      m + 1 - c ≤ ticks.length →
      ∃ k, loopRun m ticks c = some k ∧ k ≤ m + 1 - c := by
  intro ticks
  induction ticks with
  | nil =>
    intro c hc hlen
    simp only [List.length_nil] at hlen
    omega
  | cons tk rest ih =>
    intro c hc hlen
    rcases tk with ⟨ev, r⟩
    rcases search_decision_cases m c ev r with h | ⟨h, hcm⟩
    · refine ⟨1, ?_, by omega⟩
      unfold loopRun
      rw [h]
    · have hlen2 : m + 1 - (c + 1) ≤ rest.length := by
        simp only [List.length_cons] at hlen
        omega
      rcases ih (c + 1) hcm hlen2 with ⟨k, hk, hkle⟩
      refine ⟨k + 1, ?_, by omega⟩
      unfold loopRun
      rw [h]
      show (loopRun m rest (c + 1)).map (· + 1) = some (k + 1)
      rw [hk]
      rfl

/-- Claim C6: the iteration count is incremented exactly on the ticks
that continue gathering and untouched on the DONE hand-off, and from a
fresh state (count 0) the loop reaches the evaluate_evidence hand-off
within max_iterations + 1 node evaluations, whatever evidence and LLM
responses each tick sees. -/
theorem search_loop_termination (m : Nat) :
    (∀ (c : Nat) (ev : List Evidence) (r : Option SDOutput),
      ((search_decision_node m c ev r).1 = Goto.generate_search_query →
        (search_decision_node m c ev r).2 = c + 1) ∧
      ((search_decision_node m c ev r).1 = Goto.evaluate_evidence →
        (search_decision_node m c ev r).2 = c)) ∧
    (∀ ticks : List (List Evidence × Option SDOutput), m + 1 ≤ ticks.length →
      ∃ k, loopRun m ticks 0 = some k ∧ k ≤ m + 1) := by
  constructor
  · intro c ev r
    rcases search_decision_cases m c ev r with h | ⟨h, _⟩
    · constructor
      · intro h1
        rw [h] at h1
        simp at h1
      · intro _
        rw [h]
    · constructor
      · intro _
        rw [h]
      · intro h1
        rw [h] at h1
        simp at h1
  · intro ticks hlen
    rcases loopRun_reaches m ticks 0 (Nat.zero_le m) (by omega) with ⟨k, hk, hkle⟩
    exact ⟨k, hk, by omega⟩

/-- Claim C6 witness: with max_iterations = 3, a DONE tick keeps the
count at 0, and a run of 4 ticks that always asks for more evidence
terminates in exactly k ≤ 4 evaluations. -/
theorem search_loop_witness :
    (search_decision_node 3 0 [] none).2 = 0 ∧
    ∃ k, loopRun 3 (List.replicate 4 ([], some ⟨true⟩)) 0 = some k ∧ k ≤ 3 + 1 := by
  constructor
  · exact ((search_loop_termination 3).1 0 [] none).2 (by decide)
  · exact (search_loop_termination 3).2 (List.replicate 4 ([], some ⟨true⟩)) (by decide)

/-- Claim C7 (counterexample): an evidence set of exactly 3 items with
exactly 1 from the allow-list, seen mid-run (iteration 0 of 3) with an
LLM that would ask for more evidence, DOES early-exit to
evaluate_evidence — the first heuristic needs only ≥ 3 items and ≥ 1
authoritative source, contradicting the claim that this case does not
early-exit. -/
theorem search_early_exit_counterexample :
    authoritativeCount
      ([⟨(("https://www.cdc.gov/flu")).toList⟩, ⟨(("https://example.com/a")).toList⟩,
        ⟨(("https://newssite.com/b")).toList⟩] : List Evidence) = 1 ∧
    ([⟨(("https://www.cdc.gov/flu")).toList⟩, ⟨(("https://example.com/a")).toList⟩,
        ⟨(("https://newssite.com/b")).toList⟩] : List Evidence).length = 3 ∧
    search_decision_node 3 0
      ([⟨(("https://www.cdc.gov/flu")).toList⟩, ⟨(("https://example.com/a")).toList⟩,
        ⟨(("https://newssite.com/b")).toList⟩] : List Evidence)
      (some ⟨true⟩) = (Goto.evaluate_evidence, 0) := by
  decide

/-- Claim C7 (amended): mid-run (count below the cap), an evidence set
with at least 3 items including at least one allow-listed source DOES
early-exit to evaluate_evidence, and so does a set with at least 2
allow-listed items out of at least 2 total. -/
theorem search_early_exit_rules (m c : Nat) (evidence : List Evidence)
    (r : Option SDOutput) (hc : c < m) :
    (3 ≤ evidence.length → 1 ≤ authoritativeCount evidence →
      search_decision_node m c evidence r = (Goto.evaluate_evidence, c)) ∧
    (2 ≤ authoritativeCount evidence → 2 ≤ evidence.length →
      search_decision_node m c evidence r = (Goto.evaluate_evidence, c)) := by
  have hnm : ¬ m ≤ c := by omega
  constructor
  · intro h3 h1
    have hauth : has_authoritative_source evidence = true :=
      (auth_count_pos evidence).mp (by omega)
    unfold search_decision_node
    rw [if_neg hnm, if_pos ⟨h3, hauth⟩]
  · intro h2 hlen2
    unfold search_decision_node
    rw [if_neg hnm]
    by_cases hcond : 3 ≤ evidence.length ∧ has_authoritative_source evidence = true
    · rw [if_pos hcond]
    · rw [if_neg hcond, if_pos ⟨h2, hlen2⟩]

/-- Claim C7 witness: two evidence items, both allow-listed, at
iteration 1 of 3, early-exit to evaluate_evidence. -/
theorem search_early_exit_witness :
    search_decision_node 3 1
      ([⟨(("https://www.nih.gov/a")).toList⟩, ⟨(("https://who.int/b")).toList⟩] :
        List Evidence) none = (Goto.evaluate_evidence, 1) :=
  (search_early_exit_rules 3 1
    ([⟨(("https://www.nih.gov/a")).toList⟩, ⟨(("https://who.int/b")).toList⟩] :
      List Evidence) none (by decide)).2 (by decide) (by decide)

end FC
